import Mathlib

/-!
Verification development for two components of the pgbackrest repository:
the Perl worker-group supervisor (`BackRest::ThreadGroup`) and the C
file-descriptor read driver (`src/common/io/fdRead.c`).

Each definition is a shallow embedding of the corresponding source
function.  External collaborators (the OS `select`/`read` primitives, the
Perl `threads` handles, the clock) are modelled as explicit inputs: a
script of OS events for the read driver, immutable per-call worker status
snapshots and an elapsed-time function for the supervisor.
-/

namespace ThreadGroup

/-- Snapshot of a Perl `threads` handle as observed by the supervisor
during one call: `hasError` models `defined($thread->error())`,
`joinable` models `$thread->is_joinable()`, `running` models
`$thread->is_running()`. -/
structure Thread where
  hasError : Bool
  joinable : Bool
  running : Bool
deriving DecidableEq, Repr

/-- The slot array `oyThread`: index `i < iThreadTotal` holds either a
thread handle or `none` after `undef($self->{oyThread}[$iThreadIdx])`. -/
abbrev Slots := List (Option Thread)

/-- The `ThreadGroup` object: `threads` is `oyThread` and its length is
`iThreadTotal` (the constructor initialises `iThreadTotal = 0`). -/
structure Group where
  threads : Slots
deriving DecidableEq, Repr

/-- `ThreadGroup->new`: empty slot array, `iThreadTotal = 0`. -/
def new : Group := ⟨[]⟩

/-- `sub add`: stores the thread at index `iThreadTotal`, increments the
total, and returns `iThreadTotal - 1`, i.e. the 0-based insertion index. -/
def add (g : Group) (t : Thread) : Group × Nat :=
  (⟨g.threads ++ [some t]⟩, g.threads.length)

/-- The slot sweep of `sub kill`: every defined slot is terminated or
joined as needed, then cleared in place (`undef`), and counted in
`iTotal`; empty slots are skipped and not counted. -/
def killSlots : Slots → Slots × Nat
  | [] => ([], 0)
  | none :: rest =>
    let r := killSlots rest
    (none :: r.1, r.2)
  | some _ :: rest =>
    let r := killSlots rest
    (none :: r.1, r.2 + 1)

/-- `sub kill`: sweeps all `iThreadTotal` slots and returns the number of
slots touched. -/
def kill (g : Group) : Group × Nat :=
  let r := killSlots g.threads
  (⟨r.1⟩, r.2)

/-- Number of occupied (defined) slots. -/
def occupiedCount (s : Slots) : Nat := (s.filter Option.isSome).length

/-- The defaulting line of `sub complete`:
`$bConfessOnError = defined($bConfessOnError) ? true : $bConfessOnError;`.
A defined argument (of either truth value) becomes `true`; an omitted
argument stays `undef`, which is false in the later boolean test. -/
def effectiveConfessOnError : Option Bool → Bool
  | some _ => true
  | none => false

/-- How a call to `complete` ends: normal return of Perl `true`, the
`return false` taken on a worker error when confession is off, the
`confess` naming a thread (carrying the number printed in
`'error in thread ' . (iThreadIdx + 1)`), or the timeout `confess`. -/
inductive Outcome where
  | success
  | returnedFalse
  | workerFailure (named : Nat)
  | groupTimeout
deriving DecidableEq, Repr

/-- Result of a terminated `complete` call: the outcome, the final slot
array, and whether `$self->kill()` was invoked during the call. -/
structure CompleteResult where
  out : Outcome
  slots : Slots
  killInvoked : Bool
deriving DecidableEq, Repr

/-- Result of one pass of the inner `for` loop of `complete`: either the
call ended inside the pass (worker error detected: group killed, then
confess or `return false`), or the pass finished having joined `joined`
threads. -/
inductive PassResult where
  | ended (out : Outcome) (slots : Slots)
  | cont (slots : Slots) (joined : Nat)
deriving DecidableEq, Repr

/-- The body of the inner `for` loop of `sub complete`, scanning slots in
ascending index order from `idx`; the structural argument `n` counts the
remaining loop iterations `iThreadTotal - idx` (slot updates preserve the
array length, so the count is exact).  A defined slot whose thread has a
stored error ends the call: `$self->kill()` runs first, then either
`confess 'error in thread ' . (idx + 1)` or `return false` depending on
the (already defaulted) confess flag.  A defined joinable slot is joined
and cleared; a still-running slot is left untouched. -/
def completePassAux (confess : Bool) : Nat → Slots → Nat → Nat → PassResult
  | 0, slots, _, joined => PassResult.cont slots joined
  | n + 1, slots, idx, joined =>
    match slots[idx]? with
    | none => PassResult.cont slots joined
    | some none => completePassAux confess n slots (idx + 1) joined
    | some (some t) =>
      if t.hasError then
        PassResult.ended
          (if confess then Outcome.workerFailure (idx + 1) else Outcome.returnedFalse)
          (killSlots slots).1
      else if t.joinable then
        completePassAux confess n (slots.set idx none) (idx + 1) (joined + 1)
      else
        completePassAux confess n slots (idx + 1) joined

/-- One full pass of the inner `for` loop: all `iThreadTotal` slots,
starting at index 0 with nothing joined yet. -/
def completePass (confess : Bool) (slots : Slots) : PassResult :=
  completePassAux confess slots.length slots 0 0

/-- The timeout test of `complete`: only runs when `$iTimeout` is
defined, and fires when `time() - $lTimeBegin >= $iTimeout`. -/
def timeoutHit : Option Nat → Nat → Bool
  | some t, e => decide (t ≤ e)
  | none, _ => false

/-- The outer `while` loop of `sub complete`.  Each iteration sleeps,
then (if a timeout was supplied) compares the elapsed wall-clock time
against it and confesses on expiry without touching any slot, then runs
one pass over the slots.  `elapsed p` is `time() - $lTimeBegin` as read
on pass `p` (after the sleep); `done` is `iThreadComplete`, `total` is
`iThreadTotal`.  Fuel bounds the number of iterations; `none` models a
call still looping when the fuel runs out. -/
def completeLoop (confess : Bool) (timeout : Option Nat) (elapsed : Nat → Nat)
    (slots : Slots) (done total pass : Nat) : Nat → Option CompleteResult
  | 0 => none
  | fuel + 1 =>
    if done < total then
      if timeoutHit timeout (elapsed pass) then
        some ⟨Outcome.groupTimeout, slots, false⟩
      else
        match completePass confess slots with
        | PassResult.ended out s => some ⟨out, s, true⟩
        | PassResult.cont s j =>
          completeLoop confess timeout elapsed s (done + j) total (pass + 1) fuel
    else
      some ⟨Outcome.success, slots, false⟩

/-- `sub complete`: defaults the confess flag, then runs the polling loop
with `iThreadComplete = 0` over all `iThreadTotal` slots. -/
def complete (g : Group) (iTimeout : Option Nat) (bConfessOnError : Option Bool)
    (elapsed : Nat → Nat) (fuel : Nat) : Option CompleteResult :=
  completeLoop (effectiveConfessOnError bConfessOnError) iTimeout elapsed
    g.threads 0 g.threads.length 0 fuel

end ThreadGroup

namespace FdRead

/-- A buffer as used by `ioFdRead`: `size` is its allocated size, `used`
the number of bytes already in it.  Models the `Buffer` operations the
driver calls (`bufRemains`, `bufFull`, `bufUsedInc`), whose behaviour the
spec documents at the interface boundary. -/
structure Buffer where
  size : Nat
  used : Nat
deriving DecidableEq, Repr

/-- `bufRemains`: remaining capacity. -/
def bufRemains (b : Buffer) : Nat := b.size - b.used

/-- `bufFull`: no remaining capacity. -/
def bufFull (b : Buffer) : Bool := decide (bufRemains b = 0)

/-- `bufUsedInc`: advance the used length by `n` bytes just read. -/
def bufUsedInc (b : Buffer) (n : Nat) : Buffer := ⟨b.size, b.used + n⟩

/-- Error constants thrown by the code in `fdRead.c`: every `THROW` in
`ioFdRead` uses `FileReadError`; a failed `ASSERT` raises `AssertError`. -/
inductive ErrorType where
  | FileReadError
  | AssertError
deriving DecidableEq, Repr

/-- A raised error: its type constant and its formatted message. -/
structure PgError where
  errType : ErrorType
  msg : String
deriving DecidableEq, Repr

/-- `THROW_ON_SYS_ERROR_FMT(result == -1, FileReadError, "unable to select from %s", ...)`
(the errno detail appended by the macro is not modelled). -/
def selectError (name : String) : PgError :=
  ⟨ErrorType.FileReadError, "unable to select from " ++ name⟩

/-- `THROW_FMT(FileReadError, "unable to read data from %s after %" PRIu64 "ms", ...)`
raised when `select` returns 0. -/
def readTimeoutError (name : String) (timeout : Nat) : PgError :=
  ⟨ErrorType.FileReadError,
    "unable to read data from " ++ name ++ " after " ++ toString timeout ++ "ms"⟩

/-- `THROW_ON_SYS_ERROR_FMT(... == -1, FileReadError, "unable to read from %s", ...)`
raised when the `read` system call fails. -/
def readError (name : String) : PgError :=
  ⟨ErrorType.FileReadError, "unable to read from " ++ name⟩

/-- One `select`+`read` round as decided by the OS: `select` fails,
`select` times out, `select` is ready but `read` fails, or `select` is
ready and `read` delivers `min avail requested` bytes (`avail = 0` is an
end-of-stream report). -/
inductive FdEvent where
  | selectErr
  | selectTimeout
  | readFail
  | ready (avail : Nat)
deriving DecidableEq, Repr

/-- The `IoFdRead` driver object: source name for error messages, file
descriptor, per-call timeout in milliseconds, and the latched
end-of-stream flag (zero-initialised to `false` at construction). -/
structure IoFdRead where
  name : String
  fd : Int
  timeout : Nat
  eof : Bool
deriving DecidableEq, Repr

/-- What one call to `ioFdRead` produces: a normal return with the final
buffer, the final value of `this->eof`, the returned `actualBytes` (the
result of the last `read` system call of the call, `0` when no read
ran), and the unconsumed OS events; or a thrown error; or — a model
artifact — the event script ran out while the loop still needed a round. -/
inductive ReadResult where
  | ok (buffer : Buffer) (eofFlag : Bool) (actualBytes : Nat) (rest : List FdEvent)
  | err (e : PgError)
  | outOfEvents
deriving DecidableEq, Repr

/-- The `do`/`while` loop of `ioFdRead`, one OS event per iteration:
`select` errors and timeouts and `read` failures throw; otherwise `read`
returns `actualBytes = min avail (bufRemains buf)` bytes, the buffer's
used length advances, a zero result latches eof, and the loop repeats
while capacity remains, eof is not latched and `block` is set. -/
def ioFdReadGo (name : String) (timeout : Nat) (block : Bool) (buf : Buffer) :
    List FdEvent → ReadResult
  | [] => ReadResult.outOfEvents
  | FdEvent.selectErr :: _ => ReadResult.err (selectError name)
  | FdEvent.selectTimeout :: _ => ReadResult.err (readTimeoutError name timeout)
  | FdEvent.readFail :: _ => ReadResult.err (readError name)
  | FdEvent.ready avail :: rest =>
    let actualBytes := min avail (bufRemains buf)
    let buf2 := bufUsedInc buf actualBytes
    let eofNow := decide (actualBytes = 0)
    if bufRemains buf2 > 0 && !eofNow && block then
      ioFdReadGo name timeout block buf2 rest
    else
      ReadResult.ok buf2 eofNow actualBytes rest

/-- `ioFdRead`: asserts the buffer is not full, returns
`actualBytes = 0` immediately (consuming no OS event) when eof is
already latched, and otherwise runs the read loop, storing the loop's
final eof flag back into the driver.  A thrown error leaves the driver
state unchanged (eof was false and was never set on an erroring path). -/
def ioFdRead (st : IoFdRead) (buf : Buffer) (block : Bool) (script : List FdEvent) :
    ReadResult × IoFdRead :=
  if bufFull buf then
    (ReadResult.err ⟨ErrorType.AssertError, "assertion !bufFull(buffer) failed"⟩, st)
  else if st.eof then
    (ReadResult.ok buf true 0 script, st)
  else
    match ioFdReadGo st.name st.timeout block buf script with
    | ReadResult.ok b e n rest => (ReadResult.ok b e n rest, ⟨st.name, st.fd, st.timeout, e⟩)
    | r => (r, st)

/-- `ioFdReadEof`: returns the latched flag, no side effects. -/
def ioFdReadEof (st : IoFdRead) : Bool := st.eof

/-- `ioFdReadFd`: returns the descriptor, no side effects. -/
def ioFdReadFd (st : IoFdRead) : Int := st.fd

/-- `ioFdReadNew`: `ASSERT(fd != -1)` is the only descriptor validation;
on success the driver is built with the given name, descriptor and
timeout and a zero-initialised (false) eof flag. -/
def ioFdReadNew (name : String) (fd : Int) (timeout : Nat) : Except PgError IoFdRead :=
  if fd = -1 then
    Except.error ⟨ErrorType.AssertError, "assertion fd != -1 failed"⟩
  else
    Except.ok ⟨name, fd, timeout, false⟩

/-- One operation of the driver's public capability set, for stating
invariants over arbitrary call sequences: a `read` call (with its buffer,
blocking mode and OS script), an `eof` query, or a descriptor query. -/
inductive FdOp where
  | readOp (bufSize bufUsed : Nat) (block : Bool) (script : List FdEvent)
  | eofOp
  | fdOp
deriving Repr

/-- The driver state after one operation (`eof` and `fd` queries have no
side effects; `read` updates the state as `ioFdRead` does). -/
def applyOp (st : IoFdRead) : FdOp → IoFdRead
  | FdOp.readOp size used block script => (ioFdRead st ⟨size, used⟩ block script).2
  | FdOp.eofOp => st
  | FdOp.fdOp => st

/-- The driver state after a sequence of operations. -/
def runOps (st : IoFdRead) : List FdOp → IoFdRead
  | [] => st
  | op :: ops => runOps (applyOp st op) ops

end FdRead

/-! ## Supporting lemmas about the supervisor -/

namespace ThreadGroup

/-- After the kill sweep every slot is cleared. -/
theorem killSlots_all_none : ∀ s : Slots, ∀ x ∈ (killSlots s).1, x = none := by
  intro s
  induction s with
  | nil => intro x hx; cases hx
  | cons hd tl ih =>
    intro x hx
    cases hd <;> simp only [killSlots, List.mem_cons] at hx <;>
      rcases hx with h | h
    · exact h
    · exact ih x h
    · exact h
    · exact ih x h

/-- The kill sweep of a fully cleared slot array changes nothing and
touches zero slots. -/
theorem killSlots_of_all_none : ∀ s : Slots, (∀ x ∈ s, x = none) → killSlots s = (s, 0) := by
  intro s
  induction s with
  | nil => intro _; rfl
  | cons hd tl ih =>
    intro h
    have hhd : hd = none := h hd (List.mem_cons_self hd tl)
    subst hhd
    have htl : killSlots tl = (tl, 0) := ih fun x hx => h x (List.mem_cons_of_mem none hx)
    simp [killSlots, htl]

/-- The kill sweep counts exactly the occupied slots. -/
theorem killSlots_count : ∀ s : Slots, (killSlots s).2 = occupiedCount s := by
  intro s
  induction s with
  | nil => rfl
  | cons hd tl ih =>
    cases hd with
    | none => simpa [killSlots, occupiedCount, List.filter_cons] using ih
    | some t => simpa [killSlots, occupiedCount, List.filter_cons] using ih

/-- The kill sweep preserves the slot count (slots are cleared in place,
not removed). -/
theorem killSlots_length : ∀ s : Slots, (killSlots s).1.length = s.length := by
  intro s
  induction s with
  | nil => rfl
  | cons hd tl ih => cases hd <;> simp [killSlots, ih]

/-- A pass that ends the call does so on the error path: the outcome is
a worker failure or the `return false`, and the slot array it leaves
behind is the fully cleared result of the group kill. -/
theorem completePassAux_ended_spec :
    ∀ (n : Nat) (confess : Bool) (slots : Slots) (idx joined : Nat) (out : Outcome) (s2 : Slots),
      completePassAux confess n slots idx joined = PassResult.ended out s2 →
      ((∃ k, out = Outcome.workerFailure k) ∨ out = Outcome.returnedFalse) ∧
        ∀ x ∈ s2, x = none := by
  intro n
  induction n with
  | zero => intro confess slots idx joined out s2 h; cases h
  | succ n ih =>
    intro confess slots idx joined out s2 h
    simp only [completePassAux] at h
    split at h
    · cases h
    · exact ih confess slots (idx + 1) joined out s2 h
    · split at h
      · cases h
        constructor
        · cases confess with
          | true => exact Or.inl ⟨idx + 1, by simp⟩
          | false => exact Or.inr (by simp)
        · exact killSlots_all_none slots
      · split at h
        · exact ih confess (slots.set idx none) (idx + 1) (joined + 1) out s2 h
        · exact ih confess slots (idx + 1) joined out s2 h

/-- A pass that does not end the call never disturbs a slot holding a
thread that is not joinable: such a slot still holds the same thread
afterwards. -/
theorem completePassAux_cont_preserve :
    ∀ (n : Nat) (confess : Bool) (slots : Slots) (idx joined : Nat) (s2 : Slots) (j2 : Nat),
      completePassAux confess n slots idx joined = PassResult.cont s2 j2 →
      ∀ (m : Nat) (t : Thread), slots[m]? = some (some t) → t.joinable = false →
        s2[m]? = some (some t) := by
  intro n
  induction n with
  | zero =>
    intro confess slots idx joined s2 j2 h m t hm _
    cases h
    exact hm
  | succ n ih =>
    intro confess slots idx joined s2 j2 h m t hm htj
    simp only [completePassAux] at h
    split at h
    · cases h
      exact hm
    · exact ih confess slots (idx + 1) joined s2 j2 h m t hm htj
    · rename_i t0 hget
      split at h
      · cases h
      · split at h
        · rename_i hj
          refine ih confess (slots.set idx none) (idx + 1) (joined + 1) s2 j2 h m t ?_ htj
          have hne : idx ≠ m := by
            intro heq
            subst heq
            rw [hget] at hm
            cases hm
            rw [hj] at htj
            cases htj
          rw [List.getElem?_set_ne hne]
          exact hm
        · exact ih confess slots (idx + 1) joined s2 j2 h m t hm htj

/-- If the scan reaches index `i` holding a thread with a stored error,
and every occupied slot scanned before `i` is error-free, the pass ends
the call naming `i + 1` (or taking the `return false` branch). -/
theorem completePassAux_detect :
    ∀ (d n : Nat) (confess : Bool) (slots : Slots) (idx joined i : Nat) (t : Thread),
      i = idx + d → i < idx + n → slots[i]? = some (some t) → t.hasError = true →
      (∀ j u, idx ≤ j → j < i → slots[j]? = some (some u) → u.hasError = false) →
      ∃ s2, completePassAux confess n slots idx joined =
          PassResult.ended
            (if confess then Outcome.workerFailure (i + 1) else Outcome.returnedFalse) s2 := by
  intro d
  induction d with
  | zero =>
    intro n confess slots idx joined i t hi hn hget herr _
    have hieq : i = idx := by omega
    subst hieq
    cases n with
    | zero => omega
    | succ n =>
      refine ⟨(killSlots slots).1, ?_⟩
      simp only [completePassAux, hget, herr, if_true]
  | succ d ih =>
    intro n confess slots idx joined i t hi hn hget herr hbefore
    have hidx : idx < i := by omega
    have hlen : i < slots.length := (List.getElem?_eq_some.mp hget).1
    have hidxlen : idx < slots.length := by omega
    cases n with
    | zero => omega
    | succ n =>
      have hcur : ∃ o, slots[idx]? = some o := by
        have : slots[idx]? = some slots[idx] := List.getElem?_eq_getElem hidxlen
        exact ⟨slots[idx], this⟩
      rcases hcur with ⟨o, ho⟩
      cases o with
      | none =>
        have step : completePassAux confess (n + 1) slots idx joined =
            completePassAux confess n slots (idx + 1) joined := by
          simp only [completePassAux, ho]
        rw [step]
        exact ih n confess slots (idx + 1) joined i t (by omega) (by omega) hget herr
          (fun j u hj1 hj2 hj3 => hbefore j u (by omega) hj2 hj3)
      | some u =>
        have huerr : u.hasError = false := hbefore idx u (Nat.le_refl idx) hidx ho
        by_cases hj : u.joinable
        · have step : completePassAux confess (n + 1) slots idx joined =
              completePassAux confess n (slots.set idx none) (idx + 1) (joined + 1) := by
            simp only [completePassAux, ho, huerr, hj]
            simp
          rw [step]
          have hne : idx ≠ i := by omega
          refine ih n confess (slots.set idx none) (idx + 1) (joined + 1) i t (by omega)
            (by omega) ?_ herr ?_
          · rw [List.getElem?_set_ne hne]; exact hget
          · intro j u2 hj1 hj2 hj3
            have hnej : idx ≠ j := by omega
            rw [List.getElem?_set_ne hnej] at hj3
            exact hbefore j u2 (by omega) hj2 hj3
        · have step : completePassAux confess (n + 1) slots idx joined =
              completePassAux confess n slots (idx + 1) joined := by
            simp only [completePassAux, ho, huerr, hj]
            simp
          rw [step]
          exact ih n confess slots (idx + 1) joined i t (by omega) (by omega) hget herr
            (fun j u2 hj1 hj2 hj3 => hbefore j u2 (by omega) hj2 hj3)

/-- A terminated run of the polling loop whose outcome is the error path
(a confessed worker failure or the `return false`) invoked the group
kill before ending, and its final slot array is fully cleared. -/
theorem completeLoop_error_spec :
    ∀ (fuel : Nat) (confess : Bool) (timeout : Option Nat) (elapsed : Nat → Nat)
      (slots : Slots) (done total pass : Nat) (r : CompleteResult),
      completeLoop confess timeout elapsed slots done total pass fuel = some r →
      ((∃ k, r.out = Outcome.workerFailure k) ∨ r.out = Outcome.returnedFalse) →
      r.killInvoked = true ∧ ∀ x ∈ r.slots, x = none := by
  intro fuel
  induction fuel with
  | zero => intro _ _ _ _ _ _ _ r h; cases h
  | succ fuel ih =>
    intro confess timeout elapsed slots done total pass r h hout
    simp only [completeLoop] at h
    by_cases hd : done < total
    · rw [if_pos hd] at h
      by_cases ht : timeoutHit timeout (elapsed pass) = true
      · rw [if_pos ht] at h
        cases h
        rcases hout with ⟨k, hk⟩ | hk <;> cases hk
      · rw [Bool.not_eq_true] at ht
        rw [ht] at h
        simp only [Bool.false_eq_true, if_false] at h
        cases hpass : completePass confess slots with
        | ended out s =>
          rw [hpass] at h
          cases h
          exact ⟨rfl, (completePassAux_ended_spec slots.length confess slots 0 0 out s hpass).2⟩
        | cont s j =>
          rw [hpass] at h
          exact ih confess timeout elapsed s (done + j) total (pass + 1) r h hout
    · rw [if_neg hd] at h
      cases h
      rcases hout with ⟨k, hk⟩ | hk <;> cases hk

/-- A terminated run of the polling loop whose outcome is the timeout
confession never invoked the group kill, and every slot that held a
non-joinable thread at the start of the run still holds that same thread
at the end. -/
theorem completeLoop_timeout_spec :
    ∀ (fuel : Nat) (confess : Bool) (timeout : Option Nat) (elapsed : Nat → Nat)
      (slots : Slots) (done total pass : Nat) (r : CompleteResult),
      completeLoop confess timeout elapsed slots done total pass fuel = some r →
      r.out = Outcome.groupTimeout →
      r.killInvoked = false ∧
        ∀ (m : Nat) (t : Thread), slots[m]? = some (some t) → t.joinable = false →
          r.slots[m]? = some (some t) := by
  intro fuel
  induction fuel with
  | zero => intro _ _ _ _ _ _ _ r h; cases h
  | succ fuel ih =>
    intro confess timeout elapsed slots done total pass r h hout
    simp only [completeLoop] at h
    by_cases hd : done < total
    · rw [if_pos hd] at h
      by_cases ht : timeoutHit timeout (elapsed pass) = true
      · rw [if_pos ht] at h
        cases h
        exact ⟨rfl, fun m t hm _ => hm⟩
      · rw [Bool.not_eq_true] at ht
        rw [ht] at h
        simp only [Bool.false_eq_true, if_false] at h
        cases hpass : completePass confess slots with
        | ended out s =>
          rw [hpass] at h
          cases h
          rcases (completePassAux_ended_spec slots.length confess slots 0 0 out s hpass).1 with
            ⟨k, hk⟩ | hk <;> rw [hk] at hout <;> cases hout
        | cont s j =>
          rw [hpass] at h
          have hrec := ih confess timeout elapsed s (done + j) total (pass + 1) r h hout
          refine ⟨hrec.1, fun m t hm htj => ?_⟩
          exact hrec.2 m t
            (completePassAux_cont_preserve slots.length confess slots 0 0 s j hpass m t hm htj)
            htj
    · rw [if_neg hd] at h
      cases h
      cases hout

end ThreadGroup

/-! ## Supporting lemmas about the read driver -/

namespace FdRead

/-- A read on a driver whose end-of-stream is latched leaves the driver
state untouched (as does the assertion path). -/
theorem ioFdRead_snd_of_eof (st : IoFdRead) (buf : Buffer) (block : Bool)
    (script : List FdEvent) (h : st.eof = true) : (ioFdRead st buf block script).2 = st := by
  unfold ioFdRead
  by_cases hb : bufFull buf = true
  · rw [if_pos hb]
  · simp [hb, h]

/-- A latched end-of-stream flag survives any sequence of driver
operations. -/
theorem runOps_eof_latched :
    ∀ (ops : List FdOp) (st : IoFdRead), st.eof = true → (runOps st ops).eof = true := by
  intro ops
  induction ops with
  | nil => intro st h; exact h
  | cons op rest ih =>
    intro st h
    cases op with
    | readOp size used block script =>
      have hst : (ioFdRead st ⟨size, used⟩ block script).2 = st :=
        ioFdRead_snd_of_eof st ⟨size, used⟩ block script h
      simp only [runOps, applyOp, hst]
      exact ih st h
    | eofOp => exact ih st h
    | fdOp => exact ih st h

end FdRead

/-! ## The claims -/

/-- **C1** (code bug witness).  The defaulting line of `complete` swaps
the ternary branches: a supplied `bConfessOnError = false` is turned into
`true`, so `complete` confesses the worker failure instead of returning
false; an omitted flag stays undefined (false), so the documented default
of `true` never takes effect and `complete` returns false where the spec
demands a raise. -/
theorem complete_confess_defaulting_swapped :
    ThreadGroup.complete (ThreadGroup.add ThreadGroup.new ⟨true, false, true⟩).1 none
        (some false) (fun _ => 0) 5 =
      some ⟨ThreadGroup.Outcome.workerFailure 1, [none], true⟩ ∧
    ThreadGroup.complete (ThreadGroup.add ThreadGroup.new ⟨true, false, true⟩).1 none
        none (fun _ => 0) 5 =
      some ⟨ThreadGroup.Outcome.returnedFalse, [none], true⟩ ∧
    ThreadGroup.effectiveConfessOnError (some false) = true ∧
    ThreadGroup.effectiveConfessOnError none = false :=
  ⟨rfl, rfl, rfl, rfl⟩

/-- **C2** (counterexample).  A blocking read on a source that delivers
10 bytes and then closes appends 10 bytes to a 20-byte buffer but
returns 0 — the result of the final `read` system call — not the total
of 10 the claim promises. -/
theorem ioFdRead_return_not_total_bytes :
    FdRead.ioFdRead ⟨"src", 0, 5000, false⟩ ⟨20, 0⟩ true
        [FdRead.FdEvent.ready 10, FdRead.FdEvent.ready 0] =
      (FdRead.ReadResult.ok ⟨20, 10⟩ true 0 [], ⟨"src", 0, 5000, true⟩) ∧
    FdRead.ReadResult.ok (⟨20, 10⟩ : FdRead.Buffer) true 0 [] ≠
      FdRead.ReadResult.ok ⟨20, 10⟩ true 10 [] :=
  ⟨rfl, by decide⟩

/-- **C2** (amended).  `read` returns the byte count of the final system
read of the call: in the spec's scenario the blocking read appends 10
bytes, latches eof and returns 0 (the EOF-detecting read), and a second
read returns 0 with eof still latched, consuming no OS events. -/
theorem ioFdRead_scenario_last_read_return :
    FdRead.ioFdRead ⟨"src", 0, 5000, false⟩ ⟨20, 0⟩ true
        [FdRead.FdEvent.ready 10, FdRead.FdEvent.ready 0] =
      (FdRead.ReadResult.ok ⟨20, 10⟩ true 0 [], ⟨"src", 0, 5000, true⟩) ∧
    FdRead.ioFdRead ⟨"src", 0, 5000, true⟩ ⟨20, 10⟩ true [] =
      (FdRead.ReadResult.ok ⟨20, 10⟩ true 0 [], ⟨"src", 0, 5000, true⟩) ∧
    FdRead.ioFdReadEof ⟨"src", 0, 5000, true⟩ = true :=
  ⟨rfl, rfl, rfl⟩

/-- **C3.**  When `complete` ends on the error-detection path (a
confessed worker failure or the `failFast=false` return of false), it
has invoked `kill` on the whole group, and every slot of the group is
empty afterwards — regardless of the confess flag, the timeout, or the
group contents. -/
theorem complete_worker_error_kills_group :
    ∀ (g : ThreadGroup.Group) (tmo : Option Nat) (arg : Option Bool)
      (elapsed : Nat → Nat) (fuel : Nat) (r : ThreadGroup.CompleteResult),
      ThreadGroup.complete g tmo arg elapsed fuel = some r →
      ((∃ k, r.out = ThreadGroup.Outcome.workerFailure k) ∨
        r.out = ThreadGroup.Outcome.returnedFalse) →
      r.killInvoked = true ∧ ∀ x ∈ r.slots, x = none := by
  intro g tmo arg elapsed fuel r h hout
  exact ThreadGroup.completeLoop_error_spec fuel _ tmo elapsed g.threads 0
    g.threads.length 0 r h hout

/-- Witness for C3: a one-worker group whose worker reports an error. -/
theorem complete_worker_error_kills_group_witness :
    (⟨ThreadGroup.Outcome.workerFailure 1, [none], true⟩ :
        ThreadGroup.CompleteResult).killInvoked = true ∧
      ∀ x ∈ (⟨ThreadGroup.Outcome.workerFailure 1, [none], true⟩ :
        ThreadGroup.CompleteResult).slots, x = none :=
  complete_worker_error_kills_group ⟨[some ⟨true, false, true⟩]⟩ none (some true)
    (fun _ => 0) 5 ⟨ThreadGroup.Outcome.workerFailure 1, [none], true⟩ rfl
    (Or.inl ⟨1, rfl⟩)

/-- **C4** (counterexample).  `add` returns slot index 0 for the first
worker, but when that worker fails, the confessed failure names thread
1 (`iThreadIdx + 1`), not the 0-based index `add` returned. -/
theorem workerFailure_names_one_based_counterexample :
    (ThreadGroup.add ThreadGroup.new ⟨true, false, true⟩).2 = 0 ∧
    ThreadGroup.complete (ThreadGroup.add ThreadGroup.new ⟨true, false, true⟩).1 none
        (some true) (fun _ => 0) 5 =
      some ⟨ThreadGroup.Outcome.workerFailure 1, [none], true⟩ ∧
    ThreadGroup.Outcome.workerFailure 1 ≠ ThreadGroup.Outcome.workerFailure 0 :=
  ⟨rfl, rfl, by decide⟩

/-- **C4** (amended).  `add` returns the 0-based insertion index, and
when the first erroring occupied slot a pass meets is at index `i`, the
confessed failure names `i + 1` — the 1-based position, one more than
the index `add` returned. -/
theorem complete_error_names_index_plus_one :
    (∀ (g : ThreadGroup.Group) (t : ThreadGroup.Thread),
      (ThreadGroup.add g t).2 = g.threads.length) ∧
    ∀ (slots : ThreadGroup.Slots) (i : Nat) (t : ThreadGroup.Thread),
      slots[i]? = some (some t) → t.hasError = true →
      (∀ j u, j < i → slots[j]? = some (some u) → u.hasError = false) →
      ∃ s2, ThreadGroup.completePass true slots =
          ThreadGroup.PassResult.ended (ThreadGroup.Outcome.workerFailure (i + 1)) s2 := by
  constructor
  · intro g t
    rfl
  · intro slots i t hget herr hbefore
    have hlen : i < slots.length := (List.getElem?_eq_some.mp hget).1
    have hdet := ThreadGroup.completePassAux_detect i slots.length true slots 0 0 i t
      (by omega) (by omega) hget herr (fun j u _ hj2 hj3 => hbefore j u hj2 hj3)
    simpa [ThreadGroup.completePass] using hdet

/-- Witness for C4 (amended): slot 0 joinable and healthy, slot 1
erroring; the pass confesses thread 2. -/
theorem complete_error_names_index_plus_one_witness :
    ∃ s2, ThreadGroup.completePass true
        [some ⟨false, true, false⟩, some ⟨true, false, true⟩] =
      ThreadGroup.PassResult.ended (ThreadGroup.Outcome.workerFailure 2) s2 :=
  complete_error_names_index_plus_one.2
    [some ⟨false, true, false⟩, some ⟨true, false, true⟩] 1 ⟨true, false, true⟩ rfl rfl
    (by
      intro j u hj hg
      have hj0 : j = 0 := by omega
      subst hj0
      cases hg
      rfl)

/-- **C5.**  A `complete` call that ends by confessing the timeout never
invoked the group kill, and every slot that held a non-joinable (still
running) thread when the call began still holds that same thread — with
its `running` snapshot unchanged — when the confession is raised. -/
theorem complete_timeout_frame :
    ∀ (g : ThreadGroup.Group) (t : Nat) (arg : Option Bool) (elapsed : Nat → Nat)
      (fuel : Nat) (r : ThreadGroup.CompleteResult),
      ThreadGroup.complete g (some t) arg elapsed fuel = some r →
      r.out = ThreadGroup.Outcome.groupTimeout →
      r.killInvoked = false ∧
        ∀ (m : Nat) (th : ThreadGroup.Thread), g.threads[m]? = some (some th) →
          th.joinable = false → r.slots[m]? = some (some th) := by
  intro g t arg elapsed fuel r h hout
  exact ThreadGroup.completeLoop_timeout_spec fuel _ (some t) elapsed g.threads 0
    g.threads.length 0 r h hout

/-- Witness for C5: one still-running worker, a 1-second timeout and a
clock that reaches it on the second pass. -/
theorem complete_timeout_frame_witness :
    (⟨ThreadGroup.Outcome.groupTimeout, [some ⟨false, false, true⟩], false⟩ :
        ThreadGroup.CompleteResult).killInvoked = false ∧
      ∀ (m : Nat) (th : ThreadGroup.Thread),
        (ThreadGroup.Group.mk [some ⟨false, false, true⟩]).threads[m]? = some (some th) →
        th.joinable = false →
        (⟨ThreadGroup.Outcome.groupTimeout, [some ⟨false, false, true⟩], false⟩ :
          ThreadGroup.CompleteResult).slots[m]? = some (some th) :=
  complete_timeout_frame ⟨[some ⟨false, false, true⟩]⟩ 1 (some true) (fun p => p) 5
    ⟨ThreadGroup.Outcome.groupTimeout, [some ⟨false, false, true⟩], false⟩ rfl rfl

/-- **C6.**  Once the end-of-stream flag is latched it survives any
sequence of read/eof/descriptor operations, and a read on a latched
driver (with the asserted non-full buffer) returns 0 at once, consuming
no OS event: no readiness wait and no system read happen. -/
theorem ioFdRead_eof_latched_monotone :
    ∀ st : FdRead.IoFdRead, st.eof = true →
      (∀ ops : List FdRead.FdOp, (FdRead.runOps st ops).eof = true) ∧
      ∀ (buf : FdRead.Buffer) (block : Bool) (script : List FdRead.FdEvent),
        FdRead.bufFull buf = false →
        FdRead.ioFdRead st buf block script = (FdRead.ReadResult.ok buf true 0 script, st) := by
  intro st h
  constructor
  · intro ops
    exact FdRead.runOps_eof_latched ops st h
  · intro buf block script hfull
    simp [FdRead.ioFdRead, hfull, h]

/-- Witness for C6: a latched driver undergoing reads and queries. -/
theorem ioFdRead_eof_latched_monotone_witness :
    (FdRead.runOps ⟨"n", 4, 100, true⟩
        [FdRead.FdOp.readOp 8 0 true [FdRead.FdEvent.ready 3], FdRead.FdOp.eofOp]).eof = true ∧
    FdRead.ioFdRead ⟨"n", 4, 100, true⟩ ⟨8, 0⟩ true [FdRead.FdEvent.ready 3] =
      (FdRead.ReadResult.ok ⟨8, 0⟩ true 0 [FdRead.FdEvent.ready 3], ⟨"n", 4, 100, true⟩) :=
  ⟨(ioFdRead_eof_latched_monotone ⟨"n", 4, 100, true⟩ rfl).1
      [FdRead.FdOp.readOp 8 0 true [FdRead.FdEvent.ready 3], FdRead.FdOp.eofOp],
   (ioFdRead_eof_latched_monotone ⟨"n", 4, 100, true⟩ rfl).2 ⟨8, 0⟩ true
      [FdRead.FdEvent.ready 3] rfl⟩

/-- **C7** (counterexample).  The readiness-wait expiry and the OS-level
readiness failure raise errors of the same type, `FileReadError`; they
differ only in message, so the timeout error is not a distinct error
kind as the claim states. -/
theorem readTimeout_same_errType_counterexample :
    (FdRead.ioFdRead ⟨"srcx", 3, 1000, false⟩ ⟨8, 0⟩ true
        [FdRead.FdEvent.selectTimeout]).1 =
      FdRead.ReadResult.err ⟨FdRead.ErrorType.FileReadError,
        "unable to read data from srcx after 1000ms"⟩ ∧
    (FdRead.ioFdRead ⟨"srcx", 3, 1000, false⟩ ⟨8, 0⟩ true [FdRead.FdEvent.selectErr]).1 =
      FdRead.ReadResult.err ⟨FdRead.ErrorType.FileReadError, "unable to select from srcx"⟩ ∧
    (FdRead.readTimeoutError "srcx" 1000).errType = (FdRead.selectError "srcx").errType :=
  ⟨rfl, rfl, rfl⟩

/-- **C7** (amended).  An expired readiness wait fails with
`FileReadError` whose message names the source and the timeout value;
an OS-level readiness failure also fails with `FileReadError` (naming
only the source) — the two are the same error type, distinguished only
by message. -/
theorem ioFdRead_timeout_error_spec :
    ∀ (st : FdRead.IoFdRead) (buf : FdRead.Buffer) (block : Bool)
      (script : List FdRead.FdEvent),
      st.eof = false → FdRead.bufFull buf = false →
      FdRead.ioFdRead st buf block (FdRead.FdEvent.selectTimeout :: script) =
        (FdRead.ReadResult.err (FdRead.readTimeoutError st.name st.timeout), st) ∧
      FdRead.ioFdRead st buf block (FdRead.FdEvent.selectErr :: script) =
        (FdRead.ReadResult.err (FdRead.selectError st.name), st) ∧
      (FdRead.readTimeoutError st.name st.timeout).msg =
        "unable to read data from " ++ st.name ++ " after " ++
          toString st.timeout ++ "ms" ∧
      (FdRead.readTimeoutError st.name st.timeout).errType =
        FdRead.ErrorType.FileReadError ∧
      (FdRead.selectError st.name).errType = FdRead.ErrorType.FileReadError := by
  intro st buf block script heof hfull
  refine ⟨?_, ?_, rfl, rfl, rfl⟩
  · simp [FdRead.ioFdRead, FdRead.ioFdReadGo, hfull, heof]
  · simp [FdRead.ioFdRead, FdRead.ioFdReadGo, hfull, heof]

/-- Witness for C7 (amended): a fresh driver and an empty buffer. -/
theorem ioFdRead_timeout_error_spec_witness :
    FdRead.ioFdRead ⟨"w", 5, 250, false⟩ ⟨4, 0⟩ false [FdRead.FdEvent.selectTimeout] =
      (FdRead.ReadResult.err (FdRead.readTimeoutError "w" 250), ⟨"w", 5, 250, false⟩) ∧
    FdRead.ioFdRead ⟨"w", 5, 250, false⟩ ⟨4, 0⟩ false [FdRead.FdEvent.selectErr] =
      (FdRead.ReadResult.err (FdRead.selectError "w"), ⟨"w", 5, 250, false⟩) :=
  ⟨(ioFdRead_timeout_error_spec ⟨"w", 5, 250, false⟩ ⟨4, 0⟩ false [] rfl rfl).1,
   (ioFdRead_timeout_error_spec ⟨"w", 5, 250, false⟩ ⟨4, 0⟩ false [] rfl rfl).2.1⟩

/-- **C8** (counterexample).  The constructor's only validation is
`ASSERT(fd != -1)`: the negative descriptor `-2` is accepted and the
constructed driver holds it, contradicting the claim that every
negative descriptor is rejected with `ConfigurationError`. -/
theorem ioFdReadNew_negative_fd_accepted :
    FdRead.ioFdReadNew "n" (-2) 1000 = Except.ok ⟨"n", -2, 1000, false⟩ ∧
      (-2 : Int) < 0 :=
  ⟨rfl, by decide⟩

/-- **C8** (amended).  Construction rejects exactly the descriptor value
`-1`, via a failed assertion (`AssertError`, not `ConfigurationError`);
every other value — other negatives included — is accepted, so a
successfully constructed driver guarantees only `fd ≠ -1`. -/
theorem ioFdReadNew_validation :
    ∀ (name : String) (fd : Int) (t : Nat),
      (fd = -1 →
        FdRead.ioFdReadNew name fd t =
          Except.error ⟨FdRead.ErrorType.AssertError, "assertion fd != -1 failed"⟩) ∧
      (fd ≠ -1 → FdRead.ioFdReadNew name fd t = Except.ok ⟨name, fd, t, false⟩) := by
  intro name fd t
  constructor
  · intro h
    simp [FdRead.ioFdReadNew, h]
  · intro h
    simp [FdRead.ioFdReadNew, h]

/-- Witness for C8 (amended): `-1` is rejected, `5` is accepted. -/
theorem ioFdReadNew_validation_witness :
    FdRead.ioFdReadNew "v" (-1) 9 =
      Except.error ⟨FdRead.ErrorType.AssertError, "assertion fd != -1 failed"⟩ ∧
    FdRead.ioFdReadNew "v" 5 9 = Except.ok ⟨"v", 5, 9, false⟩ :=
  ⟨(ioFdReadNew_validation "v" (-1) 9).1 rfl,
   (ioFdReadNew_validation "v" 5 9).2 (by decide)⟩

/-- **C9.**  `kill` returns the number of occupied slots it touched; on
a group with no occupied slots it changes nothing and returns 0, and a
second consecutive `kill` likewise touches zero slots and is a no-op. -/
theorem kill_idempotent_touch_count :
    ∀ g : ThreadGroup.Group,
      (ThreadGroup.kill g).2 = ThreadGroup.occupiedCount g.threads ∧
      ((∀ x ∈ g.threads, x = none) → ThreadGroup.kill g = (g, 0)) ∧
      ThreadGroup.kill (ThreadGroup.kill g).1 = ((ThreadGroup.kill g).1, 0) := by
  intro g
  refine ⟨ThreadGroup.killSlots_count g.threads, ?_, ?_⟩
  · intro h
    have hk := ThreadGroup.killSlots_of_all_none g.threads h
    cases g with
    | mk threads => simp [ThreadGroup.kill, hk]
  · have hall : ∀ x ∈ (ThreadGroup.killSlots g.threads).1, x = none :=
      ThreadGroup.killSlots_all_none g.threads
    have hk := ThreadGroup.killSlots_of_all_none _ hall
    simp [ThreadGroup.kill, hk]

/-- Witness for C9: an all-empty group is untouched; a double kill on a
mixed group touches zero the second time. -/
theorem kill_idempotent_touch_count_witness :
    ThreadGroup.kill ⟨[none]⟩ = (⟨[none]⟩, 0) ∧
      ThreadGroup.kill
          (ThreadGroup.kill ⟨[none, some ⟨false, false, true⟩]⟩).1 =
        ((ThreadGroup.kill ⟨[none, some ⟨false, false, true⟩]⟩).1, 0) :=
  ⟨(kill_idempotent_touch_count ⟨[none]⟩).2.1 (by simp),
   (kill_idempotent_touch_count ⟨[none, some ⟨false, false, true⟩]⟩).2.2⟩

/-- **C10.**  On every polling pass with a timeout supplied, the
elapsed-time check runs before any slot is inspected: once the elapsed
time reaches the timeout, the loop confesses the timeout with the slot
array exactly as the pass found it — no worker is joined in that pass,
whatever the slots hold (even all-joinable or erroring workers). -/
theorem completeLoop_timeout_before_pass :
    ∀ (confess : Bool) (t : Nat) (elapsed : Nat → Nat) (slots : ThreadGroup.Slots)
      (done total pass fuel : Nat),
      done < total → t ≤ elapsed pass →
      ThreadGroup.completeLoop confess (some t) elapsed slots done total pass (fuel + 1) =
        some ⟨ThreadGroup.Outcome.groupTimeout, slots, false⟩ := by
  intro confess t elapsed slots done total pass fuel hd ht
  simp [ThreadGroup.completeLoop, ThreadGroup.timeoutHit, hd, ht]

/-- Witness for C10: both remaining workers are joinable (one with a
stored error), yet the expired clock makes the pass confess the timeout
with both slots untouched. -/
theorem completeLoop_timeout_before_pass_witness :
    ThreadGroup.completeLoop true (some 5) (fun _ => 5)
        [some ⟨false, true, false⟩, some ⟨true, true, false⟩] 0 2 0 3 =
      some ⟨ThreadGroup.Outcome.groupTimeout,
        [some ⟨false, true, false⟩, some ⟨true, true, false⟩], false⟩ :=
  completeLoop_timeout_before_pass true 5 (fun _ => 5)
    [some ⟨false, true, false⟩, some ⟨true, true, false⟩] 0 2 0 2 (by decide) (by decide)
